import Mathlib

/-!
Verification development for the 86Box DrawBridge floppy bridge:
a shallow embedding of the MFM decoder of `src/floppy/fdd_drawbridge.c`
(`findSectors_IBM` and its helpers) and of the serial protocol engine of
`src/floppy/drawbridge.c` (`attempt_to_sync`, `arduino_interface_open_port`,
`arduino_interface_select_track`, `arduino_interface_check_disk_capacity`,
`arduino_interface_read_current_track`), together with theorems settling the
specification claims about them.

Machine integers are modelled as `Nat` (with explicit masks `% 2^w` where the C
code relies on fixed-width wrap-around); the `int8_t` running sector number is
modelled as `Int` with explicit wrap into `[-128, 127]`.  The serial transport
is modelled as an oracle: a list of bytes (or, for the streaming read loop, a
list of per-poll chunks) that the device delivers to each read call; writes
always succeed and are recorded.  Host is assumed little-endian, as the C code
itself assumes when it reads CRC fields through `uint16_t` casts.
-/

namespace Drawbridge

/-! ## MFM sync constants (fdd_drawbridge.h) -/

/-- IAM A1A1A1FC, `MFM_SYNC_TRACK_HEADER` in the header. -/
def MFM_SYNC_TRACK_HEADER : Nat := 0x5224522452245552

/-- IDAM A1A1A1FE, `MFM_SYNC_SECTOR_HEADER` in the header. -/
def MFM_SYNC_SECTOR_HEADER : Nat := 0x4489448944895554

/-- DAM A1A1A1FB, `MFM_SYNC_SECTOR_DATA` in the header. -/
def MFM_SYNC_SECTOR_DATA : Nat := 0x4489448944895545

/-- `RAW_TRACKDATA_LENGTH_DD` = 0x1900*2+0x440 = 13888 bytes. -/
def RAW_TRACKDATA_LENGTH_DD : Nat := 0x1900 * 2 + 0x440

/-- `RAW_TRACKDATA_LENGTH_HD` = twice the DD length = 27776 bytes. -/
def RAW_TRACKDATA_LENGTH_HD : Nat := 2 * RAW_TRACKDATA_LENGTH_DD

/-! ## CRC16 (`crc16` in fdd_drawbridge.c): poly 0x1021, caller passes 0xFFFF -/

/-- One shift round of the CRC16 inner loop; `wCrc` is a `uint16_t`, so every
intermediate store truncates to 16 bits. -/
def crc16round (c : Nat) : Nat :=
  if c &&& 0x8000 ≠ 0 then ((c <<< 1) ^^^ 0x1021) &&& 0xFFFF else (c <<< 1) &&& 0xFFFF

/-- Fold one input byte into the CRC: xor into the high byte, then 8 rounds. -/
def crc16byte (c b : Nat) : Nat := crc16round^[8] ((c ^^^ (b <<< 8)) &&& 0xFFFF)

/-- `crc16(pData, length, wCrc)` over a byte list. -/
def crc16 (data : List Nat) (wCrc : Nat) : Nat := data.foldl crc16byte wCrc

/-! ## Bit access and clock-stripping extraction (`extractMFMDecodeRaw`) -/

/-- Bit of the raw capture at absolute bit position `pos`
(`track[pos >> 3] & (1 << (7 - (pos & 7)))`), as 0 or 1.  Out-of-range byte
reads yield 0. -/
def trackBitAt (track : List Nat) (pos : Nat) : Nat :=
  if Nat.testBit (track.getD (pos / 8) 0) (7 - pos % 8) then 1 else 0

/-- Accumulate `n` data bits starting at bit cursor `pos`, skipping a clock bit
after each data bit: after reading a bit the cursor advances by 2 modulo
`len` (`realBitPos = (realBitPos + 2) % dataLengthInBits`). -/
def extractBitsAux (track : List Nat) (len : Nat) : Nat → Nat → Nat → Nat × Nat
  | 0, acc, pos => (acc, pos)
  | n + 1, acc, pos =>
      extractBitsAux track len n (acc * 2 + trackBitAt track pos) ((pos + 2) % len)

/-- Extract `n` MFM-decoded bytes continuing from cursor `pos`. -/
def extractBytesAux (track : List Nat) (len : Nat) : Nat → Nat → List Nat
  | 0, _ => []
  | n + 1, pos =>
      let r := extractBitsAux track len 8 0 pos
      r.1 :: extractBytesAux track len n r.2

/-- `extractMFMDecodeRaw(inTrack, dataLengthInBits, bitPos, outputBytes, output)`:
the cursor starts at `bitPos + 1` (skipping the clock bit); `bitPos` is a
`uint32_t`, so the increment wraps at 2^32. -/
def extractMFMDecodeRaw (track : List Nat) (len bitPos n : Nat) : List Nat :=
  extractBytesAux track len n ((bitPos + 1) % 4294967296)

/-! ## Decoded-track data model (fdd_drawbridge.h) -/

/-- `DecodedSector`: the standardized sector payload plus its error count
(`numErrors == 0` means both CRCs validated). -/
structure DecodedSector where
  data : List Nat
  numErrors : Nat
deriving DecidableEq

/-- The `SectorMapEntry` linked list of `(sectorNumber, DecodedSector)` pairs,
newest entry at the head (`add_sector_entry` prepends). -/
abbrev SectorList := List (Nat × DecodedSector)

/-- `DecodedTrack`: the sector map plus the count of expected sectors that are
missing or have errors. -/
structure DecodedTrack where
  sectors : SectorList
  sectorsWithErrors : Nat
deriving DecidableEq

/-- `find_sector_entry`: first entry with the given sector number. -/
def find_sector_entry : SectorList → Nat → Option DecodedSector
  | [], _ => none
  | (k, v) :: rest, key => if k = key then some v else find_sector_entry rest key

/-- `update_sector_entry` applied to the entry that `find_sector_entry` found:
replace the stored sector of the first entry with the given key. -/
def update_sector_entry : SectorList → Nat → DecodedSector → SectorList
  | [], _, _ => []
  | (k, v) :: rest, key, sec =>
      if k = key then (k, sec) :: rest else (k, v) :: update_sector_entry rest key sec

/-- The map-update step run for every decoded sector (fdd_drawbridge.c lines
344-354): look up `sector - 1`; if absent, add it only when `sector <= 22`;
if present, keep whichever copy has fewer errors. -/
def recordSector (m : SectorList) (sector : Nat) (sec : DecodedSector) : SectorList :=
  match find_sector_entry m (sector - 1) with
  | none => if sector ≤ 22 then (sector - 1, sec) :: m else m
  | some existing =>
      if existing.numErrors > sec.numErrors then update_sector_entry m (sector - 1) sec else m

/-! ## The scanner state of `findSectors_IBM` -/

/-- The parsed fields of `IBMSectorHeader` that the algorithm reads back
(address mark and CRC bytes are only ever used via the raw byte list). -/
structure IBMHdr where
  cylinder : Nat
  head : Nat
  sector : Nat
  length : Nat
deriving DecidableEq

/-- Wrap an integer into `int8_t` range, the behaviour of the C cast. -/
def toInt8 (n : Int) : Int := (n + 128) % 256 - 128

/-- The local state of the scan loop in `findSectors_IBM`. -/
structure ScanState where
  decoded : Nat
  headerFound : Bool
  hdr : IBMHdr
  headerErrors : Nat
  lastSectorNumber : Int
  sectorSize : Nat
  sectorEndPoint : Nat
  gapTotal : Nat
  numGaps : Nat
  syncHeadersFound : Nat
  syncDataFound : Nat
  sectors : SectorList
deriving DecidableEq

/-- Initial scan state (`decoded = 0`, `headerErrors = 0xFFFF`,
`lastSectorNumber = -1`, `sectorSize = 2`, counters zero, empty map; the
uninitialized stack header is modelled as zeroes, faithful to every use since
the header is only read after it has been written). -/
def initScanState : ScanState :=
  { decoded := 0, headerFound := false, hdr := ⟨0, 0, 0, 0⟩, headerErrors := 0xFFFF,
    lastSectorNumber := -1, sectorSize := 2, sectorEndPoint := 0, gapTotal := 0,
    numGaps := 0, syncHeadersFound := 0, syncDataFound := 0, sectors := [] }

/-- Header validation (fdd_drawbridge.c lines 274-296): returns the stored
header (with the sector clamped to at least 1), the final header error count,
and the error count after only the clamp and CRC checks (which is what gates
the `sectorSize` update in the C code). -/
def parseHeader (hb : List Nat) (cylinder : Nat) (upperSide : Bool) : IBMHdr × Nat × Nat :=
  let crcCalc := crc16 (hb.take 8) 0xFFFF
  let crcStored := hb.getD 8 0 * 256 + hb.getD 9 0
  let sector0 := hb.getD 6 0
  let sector1 := if sector0 < 1 then 1 else sector0
  let e1 : Nat := if sector0 < 1 then 1 else 0
  let e2 := if crcCalc ≠ crcStored then e1 + 1 else e1
  let e3 := if hb.getD 4 0 ≠ cylinder then e2 + 1 else e2
  let e4 := if hb.getD 5 0 ≠ (if upperSide then 1 else 0) then e3 + 1 else e3
  (⟨hb.getD 4 0, hb.getD 5 0, sector1, hb.getD 7 0⟩, e4, e2)

/-- The IDAM branch of the scan loop (`decoded == MFM_SYNC_SECTOR_HEADER`):
gap statistics, header extraction and validation.  All bit positions are
`uint32_t`, hence the explicit wrap at 2^32 of `bit + 1 - 64`. -/
def processIDAM (track : List Nat) (len cylinder : Nat) (upperSide : Bool)
    (bit : Nat) (s : ScanState) : ScanState :=
  let markerStart := (bit + 1 + (4294967296 - 64)) % 4294967296
  let gapRaw := ((markerStart + 4294967296 - s.sectorEndPoint % 4294967296) % 4294967296) / 16
  let gapAdd := if s.sectorEndPoint ≠ 0 then min (gapRaw - 12 * 2) 200 else 0
  let gapCnt := if s.sectorEndPoint ≠ 0 then 1 else 0
  let hb := extractMFMDecodeRaw track len markerStart 10
  let p := parseHeader hb cylinder upperSide
  { s with
    syncHeadersFound := s.syncHeadersFound + 1,
    gapTotal := s.gapTotal + gapAdd,
    numGaps := s.numGaps + gapCnt,
    hdr := p.1,
    headerErrors := p.2.1,
    headerFound := true,
    sectorSize := if p.2.2 = 0 then hb.getD 7 0 else s.sectorSize,
    lastSectorNumber := toInt8 (Int.ofNat p.1.sector) }

/-- Bit position of the data mark in the DAM branch (`bit + 1 - 64` as
`uint32_t`). -/
def damBit0 (bit : Nat) : Nat := (bit + 1 + (4294967296 - 64)) % 4294967296

/-- The standardized sector built in the DAM branch when a header was found:
data mark, payload and CRC are extracted with clock-bit stripping, the CRC16
is validated, and the error count is the header errors plus 0 or 1 for a data
CRC failure. -/
def damSector (track : List Nat) (len bit : Nat) (s : ScanState) : DecodedSector :=
  let dataSize := 1 <<< (7 + s.hdr.length)
  let b0 := damBit0 bit
  let dataMark := extractMFMDecodeRaw track len b0 4
  let b1 := (b0 + 4 * 8 * 2) % 4294967296
  let payload := extractMFMDecodeRaw track len b1 dataSize
  let b2 := (b1 + dataSize * 8 * 2) % 4294967296
  let crcB := extractMFMDecodeRaw track len b2 2
  let crcCalc := crc16 payload (crc16 dataMark 0xFFFF)
  let dataValid : Bool := crcCalc == crcB.getD 0 0 * 256 + crcB.getD 1 0
  ⟨payload, s.headerErrors + (if dataValid then 0 else 1)⟩

/-- End-of-sector bit position recorded after a data block
(`bitStart + 4 * 8` after the two extraction advances, as `uint32_t`). -/
def damEndPoint (bit : Nat) (s : ScanState) : Nat :=
  ((damBit0 bit + 4 * 8 * 2) % 4294967296 + (1 <<< (7 + s.hdr.length)) * 8 * 2) % 4294967296
    + 4 * 8

/-- The DAM branch (`decoded == MFM_SYNC_SECTOR_DATA`).  When no header was
found the code guesses one (incrementing `lastSectorNumber`, error count 0xF0)
but leaves `headerFound` false; the data block is guarded by `headerFound`, so
in that case nothing further happens.  When a header was found, the data mark,
payload and CRC are extracted and the sector is recorded. -/
def processDAM (track : List Nat) (len cylinder : Nat) (upperSide : Bool)
    (bit : Nat) (s0 : ScanState) : ScanState :=
  if s0.headerFound then
    { s0 with
      syncDataFound := s0.syncDataFound + 1,
      sectors := recordSector s0.sectors s0.hdr.sector (damSector track len bit s0),
      headerErrors := 0xFFFF,
      headerFound := false,
      sectorEndPoint := damEndPoint bit s0 % 4294967296 }
  else
    { s0 with
      syncDataFound := s0.syncDataFound + 1,
      lastSectorNumber := toInt8 (s0.lastSectorNumber + 1),
      hdr := ⟨cylinder % 256, if upperSide then 1 else 0,
        ((toInt8 (s0.lastSectorNumber + 1)).emod 256).toNat, s0.sectorSize⟩,
      headerErrors := 0xF0 }

/-- Dispatch on the three sync constants once the shift register holds the
current 64-bit window (`s1.decoded`). -/
def scanDispatch (track : List Nat) (len cylinder : Nat) (upperSide : Bool) (bit : Nat)
    (s1 : ScanState) : ScanState :=
  if s1.decoded = MFM_SYNC_SECTOR_HEADER then processIDAM track len cylinder upperSide bit s1
  else if s1.decoded = MFM_SYNC_SECTOR_DATA then processDAM track len cylinder upperSide bit s1
  else if s1.decoded = MFM_SYNC_TRACK_HEADER then
    { s1 with headerFound := false, headerErrors := 0xFFFF, lastSectorNumber := -1 }
  else s1

/-- One iteration of the scan loop: shift the next capture bit into the 64-bit
register and dispatch on the three sync constants. -/
def scanStep (track : List Nat) (len cylinder head : Nat) (s : ScanState) (bit : Nat) :
    ScanState :=
  scanDispatch track len cylinder (head == 1) bit
    { s with
      decoded := ((s.decoded <<< 1) ||| trackBitAt track (bit % len)) &&& 18446744073709551615 }

/-- The full scan: `for (bit = 0; bit < dataLengthInBits; bit++)`. -/
def scanTrack (track : List Nat) (len cylinder head : Nat) : ScanState :=
  (List.range len).foldl (scanStep track len cylinder head) initScanState

/-- The zero-filled placeholder sector with the maximum error sentinel. -/
def dummySector (ssize : Nat) : DecodedSector := ⟨List.replicate ssize 0, 0xFFFF⟩

/-- The dummy-fill loop of `findSectors_IBM` (lines 383-401): for each expected
sector number, synthesize a placeholder when missing (only when the caller
supplied a nonzero `expectedNumSectors`), and count missing or erroneous
sectors in `sectorsWithErrors`. -/
def fillLoop (expectedNumSectors ssize : Nat) : List Nat → SectorList × Nat → SectorList × Nat
  | [], st => st
  | k :: ks, (m, errs) =>
    match find_sector_entry m k with
    | none =>
        if expectedNumSectors ≠ 0 then
          fillLoop expectedNumSectors ssize ks ((k, dummySector ssize) :: m, errs + 1)
        else fillLoop expectedNumSectors ssize ks (m, errs)
    | some e =>
        fillLoop expectedNumSectors ssize ks (m, if e.numErrors ≠ 0 then errs + 1 else errs)

/-- Post-scan stage of `findSectors_IBM`: gap average, default sector count
(9 for DD, 18 for HD when `expectedNumSectors` is 0) and the dummy fill. -/
def finishScan (isHD : Bool) (expectedNumSectors : Nat) (s : ScanState) : DecodedTrack × Bool :=
  let expectedSectors :=
    if expectedNumSectors ≠ 0 then expectedNumSectors else if isHD then 18 else 9
  let nonstd : Bool := if s.numGaps ≠ 0 then decide (s.gapTotal / s.numGaps < 70) else false
  let ssize := 1 <<< (7 + s.sectorSize)
  let r := fillLoop expectedNumSectors ssize (List.range expectedSectors) (s.sectors, 0)
  (⟨r.1, r.2⟩, nonstd)

/-- `findSectors_IBM(track, dataLengthInBits, isHD, cylinder, head,
expectedNumSectors, decodedTrack, nonstandardTimings)`, returning the decoded
track and the nonstandard-timings flag. -/
def findSectors_IBM (track : List Nat) (len : Nat) (isHD : Bool)
    (cylinder head expectedNumSectors : Nat) : DecodedTrack × Bool :=
  finishScan isHD expectedNumSectors (scanTrack track len cylinder head)

/-! ## Protocol engine (drawbridge.c), transport modelled as a byte oracle -/

/-- The subset of `DiagnosticResponse` codes reachable in the modelled paths. -/
inductive DResp where
  | ok
  | error
  | statusError
  | sendFailed
  | sendParameterFailed
  | readResponseFailed
  | trackRangeError
  | selectTrackError
  | noDiskInDrive
  | mediaTypeMismatch
  | errorReadingVersion
  | malformedVersion
  | portError
deriving DecidableEq

/-- `run_command` response evaluation: `'1'` is OK, `'0'` is Error, anything
else is StatusError. -/
def evalResponseByte (b : Nat) : DResp :=
  if b = 49 then .ok else if b = 48 then .error else .statusError

/-- `run_command` against a response-byte stream: the command (and optional
parameter) writes always succeed in the transport model; the single response
byte is taken from the stream, and an exhausted stream models the read timing
out (`READ_RESPONSE_FAILED`). -/
def runCommand : List Nat → DResp × List Nat
  | [] => (.readResponseFailed, [])
  | b :: rest => (evalResponseByte b, rest)

/-! ### Handshake: `attempt_to_sync` and `arduino_interface_open_port` -/

/-- Outcome of `attempt_to_sync`. -/
inductive SyncResult where
  | success (versionChars : List Nat)
  | failure (code : DResp)
deriving DecidableEq

/-- The rolling 5-byte window test: `1 V <1-9> <,|.> <0-9>`. -/
def syncMatch (b0 b1 b2 b3 b4 : Nat) : Bool :=
  b0 == 49 && b1 == 86 && decide (49 ≤ b2 ∧ b2 ≤ 57) && (b3 == 44 || b3 == 46)
    && decide (48 ≤ b4 ∧ b4 ≤ 57)

/-- `attempt_to_sync` over the bytes the device emits after the initial
`x R ?` write.  Each delivered byte lands in `buffer[4]`, the window is
checked, and on a miss the window slides left.  `cd` is `counterData`: the
2049th non-matching byte makes the old counter value exceed 2048 and the sync
fails with `ErrorMalformedVersion`.  An exhausted stream models a transport
that stays silent, which trips the `counterNoData` limit (and in real time the
8-second deadline) yielding `ErrorReadingVersion`; the periodic version-query
kicks are writes and always succeed.  On a match the version string is
`buffer[1..4]`. -/
def attempt_to_sync : List Nat → Nat → Nat → Nat → Nat → Nat → SyncResult
  | [], _, _, _, _, _ => .failure .errorReadingVersion
  | x :: rest, cd, b0, b1, b2, b3 =>
      if syncMatch b0 b1 b2 b3 x then .success [b1, b2, b3, x]
      else if cd > 2048 then .failure .malformedVersion
      else attempt_to_sync rest (cd + 1) b1 b2 b3 x

/-- `FirmwareVersion` (fdd_drawbridge.h). -/
structure FirmwareVersion where
  major : Nat
  minor : Nat
  fullControlMod : Bool
  deviceFlags1 : Nat
  deviceFlags2 : Nat
  buildNumber : Nat
deriving DecidableEq

/-- Result of `arduino_interface_open_port`: the diagnostic response and the
session firmware version (zero-initialized by `arduino_interface_create`). -/
structure OpenPortResult where
  resp : DResp
  version : FirmwareVersion
deriving DecidableEq

/-- `arduino_interface_open_port` against a transport oracle: `syncEcho` is
what the device emits during the handshake and `postStream` what it emits in
response to the check-features command.  On sync success the version
characters `V x sep y` are parsed (`major = versionString[1] - '0'`,
`minor = versionString[3] - '0'`, `fullControlMod = versionString[2] == ','`;
the `char` arithmetic wraps at 2^8), and for firmware at least 1.9 the
check-features command must succeed, after which three capability bytes are
read with missing bytes defaulting to 0. -/
def arduino_interface_open_port (syncEcho postStream : List Nat) : OpenPortResult :=
  match attempt_to_sync syncEcho 0 0 0 0 0 with
  | .failure c => ⟨c, ⟨0, 0, false, 0, 0, 0⟩⟩
  | .success vs =>
      let major := (vs.getD 1 0 + 208) % 256
      let minor := (vs.getD 3 0 + 208) % 256
      let fcm : Bool := vs.getD 2 0 == 44
      if major > 1 ∨ (major = 1 ∧ 9 ≤ minor) then
        match runCommand postStream with
        | (.ok, rest) =>
            ⟨.ok, ⟨major, minor, fcm, rest.getD 0 0, rest.getD 1 0, rest.getD 2 0⟩⟩
        | (c, _) => ⟨c, ⟨major, minor, fcm, 0, 0, 0⟩⟩
      else ⟨.ok, ⟨major, minor, fcm, 0, 0, 0⟩⟩

/-! ### `arduino_interface_select_track` -/

/-- Result of a track-selection call: the diagnostic response and the bytes
written to the transport. -/
structure SelectTrackResult where
  resp : DResp
  writes : List Nat
deriving DecidableEq

/-- `arduino_interface_select_track`: indexes above 83 are rejected locally
before any transport access; otherwise the ASCII command `'#'` plus the
2-digit decimal track are written and the single response byte is mapped
(`'2'` and `'1'` to OK, `'0'` to SelectTrackError, else StatusError). -/
def arduino_interface_select_track (trackIndex : Nat) (responses : List Nat) :
    SelectTrackResult :=
  if trackIndex > 83 then ⟨.trackRangeError, []⟩
  else
    let w := [35, 48 + trackIndex / 10, 48 + trackIndex % 10]
    match responses with
    | [] => ⟨.readResponseFailed, w⟩
    | r :: _ =>
        if r = 50 then ⟨.ok, w⟩
        else if r = 49 then ⟨.ok, w⟩
        else if r = 48 then ⟨.selectTrackError, w⟩
        else ⟨.statusError, w⟩

/-! ### `arduino_interface_check_disk_capacity` -/

/-- Result of a capacity check: the diagnostic response, the session
`diskInDrive` flag after the call, and the caller `isHD` variable after the
call (the pointed-to value, which the call may or may not write through). -/
structure CapacityResult where
  resp : DResp
  diskInDrive : Bool
  isHD : Bool
deriving DecidableEq

/-- `arduino_interface_check_disk_capacity`: when density detection is not
advertised in `deviceFlags1` the caller flag is set false and the call
returns OK with no transport access.  Otherwise the density-check command
runs and one status byte is read: `'x'` reports no disk; `'H'` sets
`diskInDrive` and writes true through the pointer; `'D'` sets `diskInDrive`
but assigns false to the local pointer variable itself (`isHD = false`, not
`*isHD = false`), so the caller flag keeps its previous value; any other
byte leaves everything unchanged and returns the OK from the command. -/
def arduino_interface_check_disk_capacity (deviceFlags1 : Nat)
    (diskInDrive0 isHD0 : Bool) (stream : List Nat) : CapacityResult :=
  if deviceFlags1 &&& 8 = 0 then ⟨.ok, diskInDrive0, false⟩
  else
    match runCommand stream with
    | (.ok, rest) =>
        match rest with
        | [] => ⟨.readResponseFailed, diskInDrive0, isHD0⟩
        | st :: _ =>
            if st = 120 then ⟨.noDiskInDrive, diskInDrive0, isHD0⟩
            else if st = 72 then ⟨.ok, true, true⟩
            else if st = 68 then ⟨.ok, true, isHD0⟩
            else ⟨.ok, diskInDrive0, isHD0⟩
    | (c, _) => ⟨c, diskInDrive0, isHD0⟩

/-! ### Device adapter: per-sector extraction in `read_sector_from_device` -/

/-- The sector-buffer stage of `read_sector_from_device` (fdd_drawbridge.c
lines 650-689): given the decoded track, produce the 512-byte output buffer
for the requested sector.  A perfect or low-error sector is copied (padded
with zeroes if short); a sector that is absent or has `numErrors >= 0xFF`
yields the 0xAA diagnostic fill with the requested track, head, sector and
size code stamped into the first four bytes.  The C function is `void`: every
case produces a buffer, none fails. -/
def read_sector_from_device_buffer (decoded : SectorList) (track head sector : Nat) :
    List Nat :=
  match find_sector_entry decoded (sector - 1) with
  | some e =>
      if e.numErrors = 0 then
        if 512 ≤ e.data.length then e.data.take 512
        else e.data ++ List.replicate (512 - e.data.length) 0
      else if e.numErrors < 0xFF then
        if 512 ≤ e.data.length then e.data.take 512
        else e.data ++ List.replicate (512 - e.data.length) 0
      else track % 256 :: head % 256 :: sector % 256 :: 2 :: List.replicate 508 0xAA
  | none => track % 256 :: head % 256 :: sector % 256 :: 2 :: List.replicate 508 0xAA

/-! ### `unpack` / `writeBit` (drawbridge.c) -/

/-- State of the `unpack` output buffer: completed bytes (newest first), the
byte currently being shifted together, and how many bits of it are filled. -/
structure UnpackState where
  finished : List Nat
  cur : Nat
  curBits : Nat
deriving DecidableEq

/-- `writeBit(output, &pos, &bit, value, maxLength)`: ignore writes past the
end; otherwise shift the value into the current byte and advance to the next
byte after 8 bits. -/
def writeBit (maxLength : Nat) (s : UnpackState) (v : Nat) : UnpackState :=
  if s.finished.length ≥ maxLength then s
  else
    let cur := s.cur * 2 + v
    if s.curBits + 1 ≥ 8 then ⟨cur :: s.finished, 0, 0⟩
    else ⟨s.finished, cur, s.curBits + 1⟩

/-- The bit sequence emitted for one 2-bit code in `unpack`: 0 is invalid data
accounted as four 0 bits; 1, 2 and 3 encode `01`, `001` and `0001`. -/
def unpackPairBits (pair : Nat) : List Nat :=
  if pair = 0 then [0, 0, 0, 0]
  else if pair = 1 then [0, 1]
  else if pair = 2 then [0, 0, 1]
  else [0, 0, 0, 1]

/-- The body of the `unpack` loop: the four 2-bit codes of `data[index]`
(high pair first) are written, then the index advances, stopping once either
the output is full or the index reaches `maxLength`. -/
def unpackLoop (data : List Nat) (maxLength : Nat) (index : Nat) (s : UnpackState) :
    UnpackState :=
  if s.finished.length < maxLength then
    let b := data.getD index 0
    let s1 := ([6, 4, 2, 0].foldl
      (fun st i => (unpackPairBits ((b >>> i) &&& 3)).foldl (writeBit maxLength) st) s)
    if index + 1 ≥ maxLength then s1 else unpackLoop data maxLength (index + 1) s1
  else s
termination_by maxLength - index
decreasing_by omega

/-- `unpack(data, output, maxLength)`: the output buffer starts zeroed, so any
incomplete trailing byte keeps its low-aligned shifted value and untouched
bytes stay 0. -/
def unpack (data : List Nat) (maxLength : Nat) : List Nat :=
  let s := unpackLoop data maxLength 0 ⟨[], 0, 0⟩
  let used := s.finished.length
  if used < maxLength then s.finished.reverse ++ s.cur :: List.replicate (maxLength - used - 1) 0
  else s.finished.reverse

/-! ### `arduino_interface_read_current_track` -/

/-- Convert one streamed byte in HD mode: each 2-bit group (high first) maps
3 to 0 and then has 1 added, rebuilding an output byte of four groups. -/
def convertStreamByte (b : Nat) : Nat :=
  [6, 4, 2, 0].foldl
    (fun acc i =>
      let t := (b >>> i) &&& 3
      let t := if t = 3 then 0 else t
      acc * 4 + (t + 1)) 0

/-- State of the HD streaming read loop. -/
structure StreamState where
  window : List Nat
  writePos : Nat
  out : List Nat
  readFail : Nat
  abortSignalled : Bool
  abortStreaming : Bool
  sentAbort : Nat
deriving DecidableEq

/-- Loop entry state: `isStreaming = true`, `abortStreaming = false`,
`abortSignalled = false`, zeroed sliding window and write position. -/
def initStreamState : StreamState := ⟨[0, 0, 0, 0, 0], 0, [], 0, false, false, 0⟩

/-- `arduino_interface_abort_read_streaming` while the session is streaming:
if the abort byte was not yet requested, mark the abort signalled and send the
abort character; in every case `abortStreaming` ends up true. -/
def abortReadStreaming (s : StreamState) : StreamState :=
  if s.abortStreaming then s
  else { s with abortSignalled := true, sentAbort := s.sentAbort + 1, abortStreaming := true }

/-- Process the bytes one poll returned.  Before the abort is signalled each
byte is converted and appended, and filling the caller length triggers the
abort request; afterwards bytes feed the 5-byte sliding window watching for
`X Y Z x 1`, whose match ends the stream (the rest of the chunk is dropped,
mirroring `bytesRead = 0`).  Returns the state and whether the end marker
matched. -/
def processStreamBytes (dl : Nat) : List Nat → StreamState → StreamState × Bool
  | [], s => (s, false)
  | b :: rest, s =>
      if s.abortSignalled then
        let w := s.window.drop 1 ++ [b]
        if w = [88, 89, 90, 120, 49] then ({ s with window := w }, true)
        else processStreamBytes dl rest { s with window := w }
      else
        let s1 := { s with out := convertStreamByte b :: s.out, writePos := s.writePos + 1 }
        let s2 := if s1.writePos ≥ dl then abortReadStreaming s1 else s1
        processStreamBytes dl rest s2

/-- Observable outcome of a track read: diagnostic response, the recorded
`lastError`, the command bytes written, the number of transport polls made by
the streaming loop, how many abort characters were sent, whether a
disk-presence re-check was forced, and the caller track buffer (`none`
meaning it was never written). -/
structure ReadTrackResult where
  resp : DResp
  lastError : DResp
  writes : List Nat
  pollsUsed : Nat
  sentAbort : Nat
  recheckedDisk : Bool
  buffer : Option (List Nat)
deriving DecidableEq

/-- The `readFail > 30` exit of the streaming loop: `abortStreaming` is forced
false so that the abort character is (re)sent, the temporary buffer is freed
without touching the caller buffer, `ReadResponseFailed` is recorded, and a
disk-presence re-check is forced before returning. -/
def streamFailResult (writes : List Nat) (s : StreamState) (polls : Nat) : ReadTrackResult :=
  let s2 := abortReadStreaming { s with abortStreaming := false }
  ⟨.readResponseFailed, .readResponseFailed, writes, polls, s2.sentAbort, true, none⟩

/-- The HD streaming poll loop over a trace of per-poll chunks.  A chunk with
no bytes (or a poll ending in the end-marker match, which zeroes `bytesRead`)
increments the cumulative `readFail` counter; once it exceeds 30 the read is
abandoned via `streamFailResult`.  An exhausted trace models a transport that
stays silent, so the loop keeps polling emptily until the counter trips. -/
def pollLoop (dl : Nat) (writes : List Nat) :
    List (List Nat) → StreamState → Nat → ReadTrackResult
  | [], s, polls => streamFailResult writes s (polls + (31 - s.readFail))
  | chunk :: rest, s, polls =>
      let pr := processStreamBytes dl chunk s
      if pr.2 then
        if pr.1.readFail + 1 > 30 then
          ⟨.readResponseFailed, .readResponseFailed, writes, polls + 1, pr.1.sentAbort,
            true, none⟩
        else
          ⟨.ok, .ok, writes, polls + 1, pr.1.sentAbort, false,
            some (unpack pr.1.out.reverse dl)⟩
      else
        if chunk.length < 1 then
          if pr.1.readFail + 1 > 30 then streamFailResult writes pr.1 (polls + 1)
          else pollLoop dl writes rest { pr.1 with readFail := pr.1.readFail + 1 } (polls + 1)
        else pollLoop dl writes rest pr.1 (polls + 1)

/-- The HD branch of `arduino_interface_read_current_track`: the stream-start
command (`'{'`), retried once on failure, then the poll loop. -/
def readTrackHD (dl : Nat) (acks : List Nat) (polls : List (List Nat)) : ReadTrackResult :=
  match runCommand acks with
  | (.ok, _) => pollLoop dl [123] polls initStreamState 0
  | (_, rest) =>
      match runCommand rest with
      | (.ok, _) => pollLoop dl [123, 123] polls initStreamState 0
      | (c2, _) => ⟨c2, c2, [123, 123], 0, 0, false, none⟩

/-- The non-HD read loop: single-byte reads until a null byte terminates the
data (bytes beyond `dataLength` are discarded); an exhausted stream models the
reads timing out, which after the retry budget yields `ReadResponseFailed`. -/
def ddLoop (dl : Nat) : List Nat → List Nat → DResp × Option (List Nat)
  | [], _ => (.readResponseFailed, none)
  | v :: rest, acc =>
      if v = 0 then (.ok, some acc)
      else if acc.length < dl then ddLoop dl rest (acc ++ [v])
      else ddLoop dl rest acc

/-- The non-HD branch: the read-track command (`'<'`), on failure a drain of up
to `dataLength` stale bytes and one retry, then the index-pulse parameter byte
and the null-terminated read; received bytes are unpacked into
the caller buffer (unreceived bytes of the temporary buffer modelled as 0). -/
def readTrackDD (dl : Nat) (readFromIndexPulse : Bool) (acks dd : List Nat) :
    ReadTrackResult :=
  let pulse : Nat := if readFromIndexPulse then 1 else 0
  match runCommand acks with
  | (.ok, _) =>
      match ddLoop dl dd [] with
      | (.ok, some acc) => ⟨.ok, .ok, [60, pulse], 0, 0, false, some (unpack acc dl)⟩
      | (c, _) => ⟨c, c, [60, pulse], 0, 0, false, none⟩
  | (_, rest) =>
      match runCommand rest with
      | (.ok, _) =>
          match ddLoop dl (dd.drop dl) [] with
          | (.ok, some acc) => ⟨.ok, .ok, [60, 60, pulse], 0, 0, false, some (unpack acc dl)⟩
          | (c, _) => ⟨c, c, [60, 60, pulse], 0, 0, false, none⟩
      | (c2, _) => ⟨c2, c2, [60, 60], 0, 0, false, none⟩

/-- `arduino_interface_read_current_track(interface, trackData, dataLength,
readFromIndexPulse)`: a DD-length request in HD mode or an HD-length request
in DD mode records and returns `MediaTypeMismatch` before any transport
access and without touching the caller buffer; otherwise the HD streaming
or the simpler non-HD read path runs. -/
def arduino_interface_read_current_track (isHDMode : Bool) (dl : Nat)
    (readFromIndexPulse : Bool) (acks : List Nat) (polls : List (List Nat))
    (dd : List Nat) : ReadTrackResult :=
  if dl = RAW_TRACKDATA_LENGTH_DD ∧ isHDMode = true then
    ⟨.mediaTypeMismatch, .mediaTypeMismatch, [], 0, 0, false, none⟩
  else if dl = RAW_TRACKDATA_LENGTH_HD ∧ isHDMode = false then
    ⟨.mediaTypeMismatch, .mediaTypeMismatch, [], 0, 0, false, none⟩
  else if isHDMode then readTrackHD dl acks polls
  else readTrackDD dl readFromIndexPulse acks dd

/-! ## Helper lemmas -/

theorem foldl_preserves {α β : Type} (f : α → β → α) (P : α → Prop)
    (hf : ∀ a b, P a → P (f a b)) : ∀ (l : List β) (a : α), P a → P (List.foldl f a l) := by
  intro l
  induction l with
  | nil => intro a ha; simpa using ha
  | cons x xs ih => intro a ha; exact ih _ (hf _ _ ha)

theorem find_sector_entry_cons_ne (k : Nat) (v : DecodedSector) (m : SectorList)
    (key : Nat) (h : k ≠ key) :
    find_sector_entry ((k, v) :: m) key = find_sector_entry m key := by
  simp [find_sector_entry, h]

theorem find_sector_entry_update (m : SectorList) (key : Nat) (sec : DecodedSector) :
    ∀ e, find_sector_entry m key = some e →
      find_sector_entry (update_sector_entry m key sec) key = some sec := by
  induction m with
  | nil => intro e h; simp [find_sector_entry] at h
  | cons p rest ih =>
      intro e h
      obtain ⟨k, v⟩ := p
      by_cases hk : k = key
      · simp [update_sector_entry, find_sector_entry, hk]
      · simp [find_sector_entry, hk] at h
        simp [update_sector_entry, find_sector_entry, hk]
        exact ih e h

theorem update_sector_entry_mem {P : Nat → Prop} :
    ∀ (m : SectorList) (key : Nat) (sec : DecodedSector), (∀ p ∈ m, P p.1) →
      ∀ p ∈ update_sector_entry m key sec, P p.1 := by
  intro m
  induction m with
  | nil => intro key sec hm p hp; simp [update_sector_entry] at hp
  | cons q rest ih =>
      intro key sec hm p hp
      obtain ⟨k, v⟩ := q
      by_cases hk : k = key
      · simp only [update_sector_entry, if_pos hk] at hp
        rcases List.mem_cons.mp hp with h | h
        · rw [h]; exact hm (k, v) (List.mem_cons_self _ _)
        · exact hm p (List.mem_cons_of_mem _ h)
      · simp only [update_sector_entry, if_neg hk] at hp
        rcases List.mem_cons.mp hp with h | h
        · rw [h]; exact hm (k, v) (List.mem_cons_self _ _)
        · exact ih key sec (fun q hq => hm q (List.mem_cons_of_mem _ hq)) p h

theorem recordSector_eq_none (m : SectorList) (snum : Nat) (sec : DecodedSector)
    (h : find_sector_entry m (snum - 1) = none) :
    recordSector m snum sec = if snum ≤ 22 then (snum - 1, sec) :: m else m := by
  unfold recordSector
  rw [h]

theorem recordSector_eq_some (m : SectorList) (snum : Nat) (sec e : DecodedSector)
    (h : find_sector_entry m (snum - 1) = some e) :
    recordSector m snum sec =
      if e.numErrors > sec.numErrors then update_sector_entry m (snum - 1) sec else m := by
  unfold recordSector
  rw [h]

theorem recordSector_keys (m : SectorList) (snum : Nat) (sec : DecodedSector)
    (hm : ∀ p ∈ m, p.1 ≤ 21) : ∀ p ∈ recordSector m snum sec, p.1 ≤ 21 := by
  cases h : find_sector_entry m (snum - 1) with
  | none =>
      rw [recordSector_eq_none m snum sec h]
      by_cases hs : snum ≤ 22
      · rw [if_pos hs]
        intro p hp
        rcases List.mem_cons.mp hp with h2 | h2
        · rw [h2]; show snum - 1 ≤ 21; omega
        · exact hm p h2
      · rw [if_neg hs]; exact hm
  | some e =>
      rw [recordSector_eq_some m snum sec e h]
      by_cases hgt : e.numErrors > sec.numErrors
      · rw [if_pos hgt]
        exact update_sector_entry_mem (P := fun k => k ≤ 21) m (snum - 1) sec hm
      · rw [if_neg hgt]; exact hm

/-- The sectors field after the DAM branch is either untouched or one
`recordSector` update of the previous map. -/
theorem processDAM_sectors (track : List Nat) (len cyl : Nat) (up : Bool) (bit : Nat)
    (s0 : ScanState) :
    (processDAM track len cyl up bit s0).sectors = s0.sectors ∨
      ∃ snum sec,
        (processDAM track len cyl up bit s0).sectors = recordSector s0.sectors snum sec := by
  unfold processDAM
  split
  · exact Or.inr ⟨s0.hdr.sector, damSector track len bit s0, rfl⟩
  · exact Or.inl rfl

/-- The sectors field after a scan step is either untouched or the result of
one `recordSector` update of the previous map. -/
theorem scanStep_sectors_cases (track : List Nat) (len cyl hd : Nat) (s : ScanState)
    (bit : Nat) :
    (scanStep track len cyl hd s bit).sectors = s.sectors ∨
      ∃ snum sec,
        (scanStep track len cyl hd s bit).sectors = recordSector s.sectors snum sec := by
  unfold scanStep
  unfold scanDispatch
  split
  · exact Or.inl rfl
  · split
    · rcases processDAM_sectors track len cyl (hd == 1) bit
          { s with decoded :=
              ((s.decoded <<< 1) ||| trackBitAt track (bit % len)) &&& 18446744073709551615 }
        with h | ⟨snum, sec, h⟩
      · exact Or.inl h
      · exact Or.inr ⟨snum, sec, h⟩
    · split
      · exact Or.inl rfl
      · exact Or.inl rfl

/-- Every key the scan loop ever stores is at most 21: entries are only added
for decoded sector numbers at most 22, under the zero-based key `sector - 1`,
and updates never change keys. -/
theorem scanTrack_keys (track : List Nat) (len cyl hd : Nat) :
    ∀ p ∈ (scanTrack track len cyl hd).sectors, p.1 ≤ 21 := by
  refine foldl_preserves (scanStep track len cyl hd)
    (fun st => ∀ p ∈ st.sectors, p.1 ≤ 21) ?_ (List.range len) initScanState ?_
  · intro a b ha
    rcases scanStep_sectors_cases track len cyl hd a b with h | ⟨snum, sec, h⟩
    · rw [h]; exact ha
    · rw [h]; exact recordSector_keys a.sectors snum sec ha
  · intro p hp
    simp [initScanState] at hp

theorem processIDAM_syncHeadersFound (track : List Nat) (len cyl : Nat) (up : Bool)
    (bit : Nat) (s : ScanState) :
    (processIDAM track len cyl up bit s).syncHeadersFound = s.syncHeadersFound + 1 := rfl

theorem processIDAM_syncDataFound (track : List Nat) (len cyl : Nat) (up : Bool)
    (bit : Nat) (s : ScanState) :
    (processIDAM track len cyl up bit s).syncDataFound = s.syncDataFound := rfl

theorem processIDAM_sectors_eq (track : List Nat) (len cyl : Nat) (up : Bool)
    (bit : Nat) (s : ScanState) :
    (processIDAM track len cyl up bit s).sectors = s.sectors := rfl

theorem processDAM_syncHeadersFound (track : List Nat) (len cyl : Nat) (up : Bool)
    (bit : Nat) (s : ScanState) :
    (processDAM track len cyl up bit s).syncHeadersFound = s.syncHeadersFound := by
  unfold processDAM
  split <;> rfl

theorem processDAM_syncDataFound (track : List Nat) (len cyl : Nat) (up : Bool)
    (bit : Nat) (s : ScanState) :
    (processDAM track len cyl up bit s).syncDataFound = s.syncDataFound + 1 := by
  unfold processDAM
  split <;> rfl

theorem processDAM_of_not_headerFound (track : List Nat) (len cyl : Nat) (up : Bool)
    (bit : Nat) (s : ScanState) (h : s.headerFound = false) :
    processDAM track len cyl up bit s =
      { s with
        syncDataFound := s.syncDataFound + 1,
        lastSectorNumber := toInt8 (s.lastSectorNumber + 1),
        hdr := ⟨cyl % 256, if up then 1 else 0,
          ((toInt8 (s.lastSectorNumber + 1)).emod 256).toNat, s.sectorSize⟩,
        headerErrors := 0xF0 } := by
  unfold processDAM
  simp [h]

/-- Invariant for the claim about captures with no sync matches: as long as no
IDAM was seen the sector-size default 2 stands and no header is pending, and
as long as no DAM was seen the sector map is empty. -/
def scanInv (st : ScanState) : Prop :=
  (st.syncHeadersFound = 0 → st.sectorSize = 2 ∧ st.headerFound = false)
  ∧ (st.syncDataFound = 0 → st.sectors = [])

theorem scanDispatch_inv (track : List Nat) (len cyl : Nat) (up : Bool) (bit : Nat)
    (a : ScanState) (ha : scanInv a) : scanInv (scanDispatch track len cyl up bit a) := by
  unfold scanDispatch
  split
  · refine ⟨?_, ?_⟩
    · intro h
      rw [processIDAM_syncHeadersFound] at h
      exact absurd h (Nat.succ_ne_zero _)
    · intro h
      rw [processIDAM_syncDataFound] at h
      rw [processIDAM_sectors_eq]
      exact ha.2 h
  · split
    · refine ⟨?_, ?_⟩
      · intro h
        rw [processDAM_syncHeadersFound] at h
        have h2 := ha.1 h
        rw [processDAM_of_not_headerFound _ _ _ _ _ _ h2.2]
        exact ⟨h2.1, h2.2⟩
      · intro h
        rw [processDAM_syncDataFound] at h
        exact absurd h (Nat.succ_ne_zero _)
    · split
      · refine ⟨?_, ?_⟩
        · intro h
          have h2 := ha.1 h
          exact ⟨h2.1, rfl⟩
        · intro h
          exact ha.2 h
      · exact ⟨fun h => ha.1 h, fun h => ha.2 h⟩

theorem scanStep_inv (track : List Nat) (len cyl hd : Nat) (a : ScanState) (bit : Nat)
    (ha : scanInv a) : scanInv (scanStep track len cyl hd a bit) :=
  scanDispatch_inv track len cyl (hd == 1) bit
    { a with
      decoded := ((a.decoded <<< 1) ||| trackBitAt track (bit % len)) &&& 18446744073709551615 }
    ha

theorem scanTrack_inv (track : List Nat) (len cyl hd : Nat) :
    scanInv (scanTrack track len cyl hd) := by
  refine foldl_preserves (scanStep track len cyl hd) scanInv ?_ (List.range len)
    initScanState ⟨fun _ => ⟨rfl, rfl⟩, fun _ => rfl⟩
  intro a b ha
  exact scanStep_inv track len cyl hd a b ha

/-! ### Lemmas about the dummy-fill loop -/

/-- Whether a key is absent from the sector map. -/
def entryMissing (m : SectorList) (k : Nat) : Bool := (find_sector_entry m k).isNone

/-- Whether a key is present with a nonzero error count. -/
def entryBad (m : SectorList) (k : Nat) : Bool :=
  match find_sector_entry m k with
  | some e => e.numErrors != 0
  | none => false

theorem fillLoop_nil (e ss : Nat) (st : SectorList × Nat) : fillLoop e ss [] st = st := rfl

theorem fillLoop_cons_none (e ss k : Nat) (ks : List Nat) (m : SectorList) (errs : Nat)
    (h : find_sector_entry m k = none) (he : e ≠ 0) :
    fillLoop e ss (k :: ks) (m, errs) =
      fillLoop e ss ks ((k, dummySector ss) :: m, errs + 1) := by
  conv_lhs => unfold fillLoop
  rw [h]
  simp [he]

theorem fillLoop_cons_some (e ss k : Nat) (ks : List Nat) (m : SectorList) (errs : Nat)
    (v : DecodedSector) (h : find_sector_entry m k = some v) :
    fillLoop e ss (k :: ks) (m, errs) =
      fillLoop e ss ks (m, if v.numErrors ≠ 0 then errs + 1 else errs) := by
  conv_lhs => unfold fillLoop
  rw [h]

/-- The fill loop never disturbs the entry of a key it does not visit. -/
theorem fillLoop_find_notmem (e ss : Nat) (he : e ≠ 0) :
    ∀ (ks : List Nat) (m : SectorList) (errs k : Nat), k ∉ ks →
      find_sector_entry (fillLoop e ss ks (m, errs)).1 k = find_sector_entry m k := by
  intro ks
  induction ks with
  | nil => intro m errs k _; rfl
  | cons a ks ih =>
      intro m errs k hk
      have hka : a ≠ k := fun h => hk (h ▸ List.mem_cons_self a ks)
      have hk2 : k ∉ ks := fun hmem => hk (List.mem_cons_of_mem a hmem)
      cases h : find_sector_entry m a with
      | none =>
          rw [fillLoop_cons_none e ss a ks m errs h he]
          rw [ih _ _ k hk2]
          exact find_sector_entry_cons_ne a (dummySector ss) m k hka
      | some v =>
          rw [fillLoop_cons_some e ss a ks m errs v h]
          exact ih _ _ k hk2

/-- Every missing visited key ends up with the zero-filled placeholder. -/
theorem fillLoop_presence (e ss : Nat) (he : e ≠ 0) :
    ∀ (ks : List Nat) (m : SectorList) (errs : Nat), ks.Nodup →
      ∀ k ∈ ks, find_sector_entry m k = none →
        find_sector_entry (fillLoop e ss ks (m, errs)).1 k = some (dummySector ss) := by
  intro ks
  induction ks with
  | nil => intro m errs _ k hk; simp at hk
  | cons a ks ih =>
      intro m errs hnd k hk hfind
      obtain ⟨hna, hnd2⟩ := List.nodup_cons.mp hnd
      rcases List.mem_cons.mp hk with hceq | hk2
      · subst hceq
        rw [fillLoop_cons_none e ss k ks m errs hfind he]
        rw [fillLoop_find_notmem e ss he ks _ _ k hna]
        simp [find_sector_entry]
      · have hka : a ≠ k := fun h => hna (h ▸ hk2)
        cases h : find_sector_entry m a with
        | none =>
            rw [fillLoop_cons_none e ss a ks m errs h he]
            refine ih _ _ hnd2 k hk2 ?_
            rw [find_sector_entry_cons_ne a _ m k hka]
            exact hfind
        | some v =>
            rw [fillLoop_cons_some e ss a ks m errs v h]
            exact ih _ _ hnd2 k hk2 hfind

/-- The error counter after the fill loop: the starting count plus one for
every visited key that is missing and one for every visited key stored with a
nonzero error count. -/
theorem fillLoop_count (e ss : Nat) (he : e ≠ 0) :
    ∀ (ks : List Nat) (m : SectorList) (errs : Nat), ks.Nodup →
      (fillLoop e ss ks (m, errs)).2
        = errs + (ks.filter (entryMissing m)).length + (ks.filter (entryBad m)).length := by
  intro ks
  induction ks with
  | nil => intro m errs _; simp [fillLoop_nil]
  | cons a ks ih =>
      intro m errs hnd
      obtain ⟨hna, hnd2⟩ := List.nodup_cons.mp hnd
      cases h : find_sector_entry m a with
      | none =>
          rw [fillLoop_cons_none e ss a ks m errs h he]
          rw [ih ((a, dummySector ss) :: m) (errs + 1) hnd2]
          have hmiss : ks.filter (entryMissing ((a, dummySector ss) :: m))
              = ks.filter (entryMissing m) := by
            refine List.filter_congr ?_
            intro x hx
            have hax : a ≠ x := fun hax => hna (hax ▸ hx)
            simp [entryMissing, find_sector_entry_cons_ne a _ m x hax]
          have hbad : ks.filter (entryBad ((a, dummySector ss) :: m))
              = ks.filter (entryBad m) := by
            refine List.filter_congr ?_
            intro x hx
            have hax : a ≠ x := fun hax => hna (hax ▸ hx)
            simp [entryBad, find_sector_entry_cons_ne a _ m x hax]
          have h1 : entryMissing m a = true := by simp [entryMissing, h]
          have h2 : entryBad m a = false := by simp [entryBad, h]
          rw [hmiss, hbad, List.filter_cons, List.filter_cons, h1, h2]
          simp
          omega
      | some v =>
          rw [fillLoop_cons_some e ss a ks m errs v h]
          rw [ih m _ hnd2]
          have h1 : entryMissing m a = false := by simp [entryMissing, h]
          have h2 : entryBad m a = (v.numErrors != 0) := by simp [entryBad, h]
          rw [List.filter_cons, List.filter_cons, h1, h2]
          by_cases hv : v.numErrors ≠ 0
          · simp [hv]
            omega
          · simp [hv]

/-! ## Claim theorems -/

theorem findSectors_IBM_eq (track : List Nat) (len : Nat) (isHD : Bool)
    (cyl hd e : Nat) :
    findSectors_IBM track len isHD cyl hd e = finishScan isHD e (scanTrack track len cyl hd) :=
  rfl

theorem finishScan_parts (isHD : Bool) (expected : Nat) (s : ScanState)
    (he : expected ≠ 0) :
    (finishScan isHD expected s).1.sectors =
      (fillLoop expected (1 <<< (7 + s.sectorSize)) (List.range expected) (s.sectors, 0)).1
    ∧ (finishScan isHD expected s).1.sectorsWithErrors =
      (fillLoop expected (1 <<< (7 + s.sectorSize)) (List.range expected) (s.sectors, 0)).2 := by
  unfold finishScan
  rw [if_pos he]
  exact ⟨rfl, rfl⟩

/-- C3: during MFM decode, when the number of a decoded sector already exists in
the result map the copy with the lower error count is kept, and any decoded
sector with sector number above 22 is discarded and never added: the
map-update step keeps the minimum-error copy for an existing key, leaves the
map unchanged for a new sector number above 22, and consequently every key
the scan ever stores is at most 21 (zero-based). -/
theorem c3_duplicate_merge_and_sector_bound :
    (∀ (m : SectorList) (snum : Nat) (sec e : DecodedSector),
        find_sector_entry m (snum - 1) = some e →
        find_sector_entry (recordSector m snum sec) (snum - 1) =
          some (if sec.numErrors < e.numErrors then sec else e))
  ∧ (∀ (m : SectorList) (snum : Nat) (sec : DecodedSector),
        find_sector_entry m (snum - 1) = none → 22 < snum →
        recordSector m snum sec = m)
  ∧ (∀ (track : List Nat) (len cyl hd : Nat) (p : Nat × DecodedSector),
        p ∈ (scanTrack track len cyl hd).sectors → p.1 ≤ 21) := by
  refine ⟨?_, ?_, ?_⟩
  · intro m snum sec e h
    rw [recordSector_eq_some m snum sec e h]
    by_cases hlt : sec.numErrors < e.numErrors
    · rw [if_pos hlt, if_pos hlt]
      exact find_sector_entry_update m (snum - 1) sec e h
    · rw [if_neg hlt, if_neg hlt]
      exact h
  · intro m snum sec h hgt
    rw [recordSector_eq_none m snum sec h, if_neg (by omega)]
  · intro track len cyl hd p hp
    exact scanTrack_keys track len cyl hd p hp

/-- C3 witness: a concrete duplicate is replaced by its lower-error copy, and
a concrete sector number 23 leaves the map unchanged. -/
theorem c3_witness :
    find_sector_entry (recordSector [(4, ⟨[1], 7⟩)] 5 ⟨[2], 3⟩) 4 = some ⟨[2], 3⟩
    ∧ recordSector [(0, ⟨[], 0⟩)] 23 ⟨[9], 1⟩ = [(0, ⟨[], 0⟩)] := by
  constructor
  · exact (c3_duplicate_merge_and_sector_bound.1 [(4, ⟨[1], 7⟩)] 5 ⟨[2], 3⟩ ⟨[1], 7⟩
      (by decide)).trans (by decide)
  · exact c3_duplicate_merge_and_sector_bound.2.1 [(0, ⟨[], 0⟩)] 23 ⟨[9], 1⟩
      (by decide) (by decide)

/-- C5: a decoded header whose sector field is below 1 is clamped to sector 1
with at least one header error (never accepted silently), and a sector number
1 is stored under the zero-based key 0. -/
theorem c5_sector_clamp :
    (∀ (hb : List Nat) (cyl : Nat) (up : Bool),
        hb.getD 6 0 < 1 →
        (parseHeader hb cyl up).1.sector = 1 ∧ 1 ≤ (parseHeader hb cyl up).2.1)
  ∧ (∀ (m : SectorList) (sec : DecodedSector),
        find_sector_entry m 0 = none →
        recordSector m 1 sec = (0, sec) :: m) := by
  constructor
  · intro hb cyl up h
    constructor
    · simp only [parseHeader]
      rw [if_pos h]
    · simp only [parseHeader, if_pos h]
      split_ifs <;> omega
  · intro m sec h
    rw [recordSector_eq_none m 1 sec h, if_pos (by omega)]

/-- C5 witness: a concrete header with sector field 0 is clamped to 1 and
carries a header error, and its record lands under key 0. -/
theorem c5_witness :
    (parseHeader [0, 0, 0, 0, 0, 0, 0, 2, 0, 0] 0 false).1.sector = 1
    ∧ 1 ≤ (parseHeader [0, 0, 0, 0, 0, 0, 0, 2, 0, 0] 0 false).2.1
    ∧ recordSector [] 1 ⟨[], 5⟩ = [(0, ⟨[], 5⟩)] := by
  refine ⟨(c5_sector_clamp.1 [0, 0, 0, 0, 0, 0, 0, 2, 0, 0] 0 false (by decide)).1,
    (c5_sector_clamp.1 [0, 0, 0, 0, 0, 0, 0, 2, 0, 0] 0 false (by decide)).2,
    c5_sector_clamp.2 [] ⟨[], 5⟩ (by decide)⟩

/-- C6: a per-sector read whose sector is absent from the decoded track or
stored with error count at or above 0xFF produces the 512-byte 0xAA fill with
the requested track, head, sector and size code in the first four bytes; the
call never fails (it always yields a full 512-byte buffer). -/
theorem c6_missing_sector_fill :
    ∀ (d : SectorList) (track hd sector : Nat),
      (find_sector_entry d (sector - 1) = none ∨
        ∃ e, find_sector_entry d (sector - 1) = some e ∧ 0xFF ≤ e.numErrors) →
      read_sector_from_device_buffer d track hd sector =
        track % 256 :: hd % 256 :: sector % 256 :: 2 :: List.replicate 508 0xAA
      ∧ (read_sector_from_device_buffer d track hd sector).length = 512 := by
  intro d track hd sector h
  have hbuf : read_sector_from_device_buffer d track hd sector =
      track % 256 :: hd % 256 :: sector % 256 :: 2 :: List.replicate 508 0xAA := by
    rcases h with h | ⟨e, he, hge⟩
    · unfold read_sector_from_device_buffer
      rw [h]
    · simp only [read_sector_from_device_buffer, he]
      rw [if_neg (by omega), if_neg (by omega)]
  refine ⟨hbuf, ?_⟩
  rw [hbuf]
  simp only [List.length_cons, List.length_replicate]

/-- C6 witness: the fill pattern at a concrete absent sector. -/
theorem c6_witness :
    read_sector_from_device_buffer [] 5 1 3 =
      5 % 256 :: 1 % 256 :: 3 % 256 :: 2 :: List.replicate 508 0xAA :=
  (c6_missing_sector_fill [] 5 1 3 (Or.inl rfl)).1

/-- C7: track indexes above 83 are rejected with TrackRangeError before any
transport write; indexes up to 83 write `'#'` plus the 2-digit decimal track
and map response `'1'` or `'2'` to OK, `'0'` to SelectTrackError, and any
other byte to StatusError. -/
theorem c7_select_track_bounds :
    (∀ (t : Nat) (responses : List Nat), 83 < t →
        arduino_interface_select_track t responses = ⟨.trackRangeError, []⟩)
  ∧ (∀ (t r : Nat) (rest : List Nat), t ≤ 83 →
      (arduino_interface_select_track t (r :: rest)).writes
          = [35, 48 + t / 10, 48 + t % 10]
      ∧ ((r = 49 ∨ r = 50) → (arduino_interface_select_track t (r :: rest)).resp = .ok)
      ∧ (r = 48 →
          (arduino_interface_select_track t (r :: rest)).resp = .selectTrackError)
      ∧ (r ≠ 48 → r ≠ 49 → r ≠ 50 →
          (arduino_interface_select_track t (r :: rest)).resp = .statusError)) := by
  constructor
  · intro t responses h
    unfold arduino_interface_select_track
    rw [if_pos h]
  · intro t r rest h
    have hneg : ¬t > 83 := by omega
    refine ⟨?_, ?_, ?_, ?_⟩
    · simp only [arduino_interface_select_track, if_neg hneg]
      split_ifs <;> rfl
    · rintro (hr | hr) <;> subst hr <;>
        simp [arduino_interface_select_track, if_neg hneg]
    · intro hr
      subst hr
      simp [arduino_interface_select_track, if_neg hneg]
    · intro h1 h2 h3
      simp [arduino_interface_select_track, if_neg hneg, h1, h2, h3]

/-- C7 witness: `selectTrack 84` performs no write and fails with
TrackRangeError, while a concrete in-range call writes `# 2 1` and succeeds
on response `'1'`. -/
theorem c7_witness :
    arduino_interface_select_track 84 [49] = ⟨.trackRangeError, []⟩
    ∧ (arduino_interface_select_track 21 [49]).writes = [35, 50, 49]
    ∧ (arduino_interface_select_track 21 [49]).resp = .ok := by
  refine ⟨c7_select_track_bounds.1 84 [49] (by omega), ?_, ?_⟩
  · exact ((c7_select_track_bounds.2 21 49 [] (by omega)).1).trans (by decide)
  · exact (c7_select_track_bounds.2 21 49 [] (by omega)).2.1 (Or.inl rfl)

/-- C8: a capacity check that receives status byte `'D'` returns OK and sets
the cached diskInDrive flag, but the caller isHD variable keeps whatever
value it had before the call (only the `'H'` case writes through the
pointer). -/
theorem c8_capacity_case_D :
    ∀ (flags1 : Nat) (disk0 hd0 : Bool) (rest : List Nat),
      flags1 &&& 8 ≠ 0 →
      arduino_interface_check_disk_capacity flags1 disk0 hd0 (49 :: 68 :: rest) =
        ⟨.ok, true, hd0⟩ := by
  intro flags1 disk0 hd0 rest h
  unfold arduino_interface_check_disk_capacity
  rw [if_neg h]
  rfl

/-- C8 witness: with density detection advertised and the caller flag
initially true, the `'D'` response leaves the flag true. -/
theorem c8_witness :
    arduino_interface_check_disk_capacity 8 false true [49, 68] = ⟨.ok, true, true⟩ :=
  c8_capacity_case_D 8 false true [] (by decide)

/-- C10: a read request whose length is the DD length while the session is in
HD mode, or the HD length while it is not, returns MediaTypeMismatch, records
it in lastError, performs no transport write or poll, and leaves the caller
track buffer untouched. -/
theorem c10_media_type_mismatch :
    ∀ (hd pulse : Bool) (dl : Nat) (acks : List Nat) (polls : List (List Nat))
      (dd : List Nat),
      (dl = RAW_TRACKDATA_LENGTH_DD ∧ hd = true) ∨
        (dl = RAW_TRACKDATA_LENGTH_HD ∧ hd = false) →
      arduino_interface_read_current_track hd dl pulse acks polls dd =
        ⟨.mediaTypeMismatch, .mediaTypeMismatch, [], 0, 0, false, none⟩ := by
  rintro hd pulse dl acks polls dd (⟨hdl, hhd⟩ | ⟨hdl, hhd⟩) <;> subst hdl <;> subst hhd
  · simp [arduino_interface_read_current_track]
  · simp [arduino_interface_read_current_track, RAW_TRACKDATA_LENGTH_DD,
      RAW_TRACKDATA_LENGTH_HD]

/-- C4: a capture in which the scan matches no sector-header and no
sector-data sync mark, decoded with expectedSectorCount 9, yields exactly the
nine zero-filled 512-byte filler entries for keys 0..8, each with the maximum
error sentinel 0xFFFF, and sectorsWithErrors 9; and in general, for any
nonzero expected count, every expected key not found after the scan is
synthesized as such a filler, and sectorsWithErrors counts exactly the
missing keys plus the keys stored with a nonzero error count. -/
theorem c4_filler_sectors :
    (∀ (track : List Nat) (len : Nat) (isHD : Bool) (cyl hd : Nat),
        (scanTrack track len cyl hd).syncHeadersFound = 0 →
        (scanTrack track len cyl hd).syncDataFound = 0 →
        (findSectors_IBM track len isHD cyl hd 9).1.sectors =
            (List.range 9).reverse.map (fun k => (k, dummySector 512))
          ∧ (findSectors_IBM track len isHD cyl hd 9).1.sectorsWithErrors = 9)
  ∧ (∀ (track : List Nat) (len : Nat) (isHD : Bool) (cyl hd expected : Nat),
        expected ≠ 0 →
        (∀ k, k < expected →
            find_sector_entry (scanTrack track len cyl hd).sectors k = none →
            find_sector_entry (findSectors_IBM track len isHD cyl hd expected).1.sectors k
              = some (dummySector (1 <<< (7 + (scanTrack track len cyl hd).sectorSize))))
        ∧ (findSectors_IBM track len isHD cyl hd expected).1.sectorsWithErrors =
            ((List.range expected).filter
              (entryMissing (scanTrack track len cyl hd).sectors)).length
            + ((List.range expected).filter
              (entryBad (scanTrack track len cyl hd).sectors)).length) := by
  constructor
  · intro track len isHD cyl hd h1 h2
    have hinv := scanTrack_inv track len cyl hd
    have hsz : (scanTrack track len cyl hd).sectorSize = 2 := (hinv.1 h1).1
    have hsec : (scanTrack track len cyl hd).sectors = [] := hinv.2 h2
    have h := finishScan_parts isHD 9 (scanTrack track len cyl hd) (by omega)
    rw [findSectors_IBM_eq]
    constructor
    · rw [h.1, hsec, hsz]
      rfl
    · rw [h.2, hsec, hsz]
      rfl
  · intro track len isHD cyl hd expected he
    have h := finishScan_parts isHD expected (scanTrack track len cyl hd) he
    constructor
    · intro k hk hfind
      rw [findSectors_IBM_eq, h.1]
      exact fillLoop_presence expected _ he (List.range expected) _ 0
        (List.nodup_range expected) k (List.mem_range.mpr hk) hfind
    · rw [findSectors_IBM_eq, h.2]
      have hc := fillLoop_count expected (1 <<< (7 + (scanTrack track len cyl hd).sectorSize))
        he (List.range expected) (scanTrack track len cyl hd).sectors 0
        (List.nodup_range expected)
      omega

/-- C4 witness: decoding a concrete all-zero capture (16 bits) with expected
sector count 9 produces the nine maximum-error fillers and
sectorsWithErrors 9. -/
theorem c4_witness :
    (findSectors_IBM [0, 0] 16 false 0 0 9).1.sectors =
        (List.range 9).reverse.map (fun k => (k, dummySector 512))
    ∧ (findSectors_IBM [0, 0] 16 false 0 0 9).1.sectorsWithErrors = 9 :=
  c4_filler_sectors.1 [0, 0] 16 false 0 0 (by decide) (by decide)

/-- C10 witness: a DD-length request in HD mode at concrete inputs. -/
theorem c10_witness :
    arduino_interface_read_current_track true RAW_TRACKDATA_LENGTH_DD true [] [] [] =
      ⟨.mediaTypeMismatch, .mediaTypeMismatch, [], 0, 0, false, none⟩ :=
  c10_media_type_mismatch true true RAW_TRACKDATA_LENGTH_DD [] [] [] (Or.inl ⟨rfl, rfl⟩)

/-- C1 counterexample: with a transport that echoes the five bytes "1V9,5"
during the handshake (and acknowledges the check-features command required
for firmware 9.5), `arduino_interface_open_port` succeeds with major 9 and
minor 5, but `fullControlMod` is true, not false as the claim states: the
code sets it from the separator character and `','` means the full-control
mod is present. -/
theorem c1_counterexample :
    (arduino_interface_open_port [49, 86, 57, 44, 53] [49, 0, 0, 0]).resp = DResp.ok
    ∧ (arduino_interface_open_port [49, 86, 57, 44, 53] [49, 0, 0, 0]).version.major = 9
    ∧ (arduino_interface_open_port [49, 86, 57, 44, 53] [49, 0, 0, 0]).version.minor = 5
    ∧ ¬((arduino_interface_open_port [49, 86, 57, 44, 53]
          [49, 0, 0, 0]).version.fullControlMod = false) := by
  decide

/-- C1 amended: for a transport echoing "1V9,5" in the handshake and
acknowledging the check-features command (required since the parsed version
9.5 is at least 1.9), `arduino_interface_open_port` succeeds and populates
`firmwareVersion` with major 9, minor 5, and `fullControlMod = true` (the
comma separator marks the full-control mod). -/
theorem c1_open_port_amended :
    ∀ rest : List Nat,
      (arduino_interface_open_port [49, 86, 57, 44, 53] (49 :: rest)).resp = DResp.ok
      ∧ (arduino_interface_open_port [49, 86, 57, 44, 53] (49 :: rest)).version.major = 9
      ∧ (arduino_interface_open_port [49, 86, 57, 44, 53] (49 :: rest)).version.minor = 5
      ∧ (arduino_interface_open_port [49, 86, 57, 44, 53]
          (49 :: rest)).version.fullControlMod = true :=
  fun _ => ⟨rfl, rfl, rfl, rfl⟩

/-- C2 (code bug): a capture whose first eight bytes are exactly the DAM sync
pattern and which contains no sector header.  The scan matches the DAM once
with no preceding header and synthesizes a guessed header exactly as the
claim describes (sector number incremented from the last seen value -1 to 0,
error count 0xF0), but since the synthesis never sets `headerFound`, the data
block guarded by `headerFound` is skipped: no sector is ever recorded, the
sector map stays empty, and the synthesized header is dead state.  The final
decoded track (expectedNumSectors 0) is empty. -/
theorem c2_synthesized_sector_never_recorded :
    (scanTrack [0x44, 0x89, 0x44, 0x89, 0x44, 0x89, 0x55, 0x45, 0, 0]
        80 0 0).syncDataFound = 1
    ∧ (scanTrack [0x44, 0x89, 0x44, 0x89, 0x44, 0x89, 0x55, 0x45, 0, 0]
        80 0 0).syncHeadersFound = 0
    ∧ (scanTrack [0x44, 0x89, 0x44, 0x89, 0x44, 0x89, 0x55, 0x45, 0, 0]
        80 0 0).headerErrors = 0xF0
    ∧ (scanTrack [0x44, 0x89, 0x44, 0x89, 0x44, 0x89, 0x55, 0x45, 0, 0]
        80 0 0).hdr.sector = 0
    ∧ (scanTrack [0x44, 0x89, 0x44, 0x89, 0x44, 0x89, 0x55, 0x45, 0, 0]
        80 0 0).headerFound = false
    ∧ (scanTrack [0x44, 0x89, 0x44, 0x89, 0x44, 0x89, 0x55, 0x45, 0, 0]
        80 0 0).sectors = []
    ∧ (findSectors_IBM [0x44, 0x89, 0x44, 0x89, 0x44, 0x89, 0x55, 0x45, 0, 0]
        80 false 0 0 0).1.sectors = [] := by
  set_option maxRecDepth 4000 in decide

/-- C9 counterexample: with the session in HD mode and a transport that
returns zero bytes on every poll, the streaming read does not abort after the
30th empty poll as the claim states: it performs a 31st poll (the counter
must exceed 30) before aborting with ReadResponseFailed. -/
theorem c9_counterexample :
    (arduino_interface_read_current_track true RAW_TRACKDATA_LENGTH_HD true [49]
        (List.replicate 40 []) []).resp = DResp.readResponseFailed
    ∧ (arduino_interface_read_current_track true RAW_TRACKDATA_LENGTH_HD true [49]
        (List.replicate 40 []) []).pollsUsed = 31
    ∧ ¬((arduino_interface_read_current_track true RAW_TRACKDATA_LENGTH_HD true [49]
        (List.replicate 40 []) []).pollsUsed = 30) := by
  decide

/-- C9 amended: during an HD streamed track read, the read loop aborts the
stream once the cumulative empty-poll counter exceeds 30, that is on the 31st
poll returning zero bytes: it sends the abort byte, records and returns
ReadResponseFailed, and forces a disk-presence re-check before returning.
Whatever the transport would have delivered later is never polled (exactly 31
polls are made). -/
theorem c9_abort_after_31_empty_polls :
    ∀ rest : List (List Nat),
      arduino_interface_read_current_track true RAW_TRACKDATA_LENGTH_HD true [49]
          (List.replicate 31 [] ++ rest) [] =
        ⟨.readResponseFailed, .readResponseFailed, [123], 31, 1, true, none⟩ :=
  fun _ => rfl

end Drawbridge
